import Mathlib

/-!
Verification of the AI mock-interview backend's core components, shallowly
embedded from the Python source:

* `assessment_service.py` — transcript building, communication metrics
  (words-per-minute, filler-word counting), the three LLM-scored passes with
  their fallbacks, JSON-response parsing, and the weighted overall score;
* `langgraph_interview_service.py` — the interview workflow state machine
  (prepare / conduct / analyze / check-completion / feedback);
* `rag_service.py` — user-context retrieval and personalized prompt building.

Numeric scores are modelled as rationals (`ℚ`); fallible external calls
(the LLM, the vector store) are modelled as explicit `Option`/`Except`
inputs so every embedded function is total and executable.
-/

namespace MockInterview

/-! ## Rounding

Python's built-in `round(x, 2)` rounds half to even.  `round2 q` is
`round(q * 100) / 100` with round-half-even at ties. -/

/-- Round a rational to the nearest integer, ties to even
(Python's `round` banker's rounding). -/
def roundHalfEven (q : ℚ) : ℤ :=
  if Int.fract q < 1/2 then ⌊q⌋
  else if 1/2 < Int.fract q then ⌈q⌉
  else if Even ⌊q⌋ then ⌊q⌋ else ⌈q⌉

/-- Python `round(x, 2)`: round to 2 decimal places. -/
def round2 (q : ℚ) : ℚ := (roundHalfEven (q * 100) : ℚ) / 100

/-! ## Score dictionaries

`_assess_communication` returns the six keys below, `_assess_content` four
keys and `_assess_behavioral` either three `None`s (non-behavioral session)
or three scores.  Each producing function always populates every field of
its family, so the families are modelled as records, with the behavioral
family an `Option` (`none` = the three explicit `None`s of the source). -/

structure CommunicationScores where
  verbal_communication_score : ℚ
  clarity_score : ℚ
  confidence_score : ℚ
  pace_score : ℚ
  words_per_minute : ℚ
  filler_word_count : ℕ
deriving Repr, DecidableEq

structure ContentScores where
  technical_accuracy_score : ℚ
  problem_solving_score : ℚ
  structure_score : ℚ
  relevance_score : ℚ
deriving Repr, DecidableEq

structure BehavioralScores where
  star_method_score : ℚ
  leadership_score : ℚ
  teamwork_score : ℚ
deriving Repr, DecidableEq

/-- Model of `_calculate_overall_score` from `assessment_service.py`: communication
mean weighted 0.30, content mean weighted 0.50, and — only when the
behavioral scores are not `None` — behavioral mean weighted 0.20; the sum
is rounded to 2 decimal places. -/
def calculate_overall_score (communication_scores : CommunicationScores)
    (content_scores : ContentScores)
    (behavioral_scores : Option BehavioralScores) : ℚ :=
  let comm_avg := (communication_scores.clarity_score +
      communication_scores.confidence_score +
      communication_scores.pace_score) / 3
  let content_avg := (content_scores.technical_accuracy_score +
      content_scores.problem_solving_score +
      content_scores.structure_score +
      content_scores.relevance_score) / 4
  let base := comm_avg * (30/100) + content_avg * (50/100)
  match behavioral_scores with
  | none => round2 base
  | some b =>
      let behavioral_avg := (b.star_method_score + b.leadership_score +
        b.teamwork_score) / 3
      round2 (base + behavioral_avg * (20/100))

/-! ## JSON values and `json.loads`

`_parse_json_response` calls Python's `json.loads`; the payloads the
service exchanges are flat objects of string keys and numeric scores, but
the parser below follows the JSON grammar (null / booleans / numbers with
optional fraction / strings with the common escapes / arrays / objects) so
that extraneous structure in a model response is handled as the library
would.  Parsing is fuel-indexed structural recursion, so it evaluates in
the kernel. -/

inductive Json where
  | null : Json
  | bool (b : Bool) : Json
  | num (q : ℚ) : Json
  | str (s : String) : Json
  | arr (elems : List Json) : Json
  | obj (fields : List (String × Json)) : Json

/-- JSON inter-token whitespace. -/
def jsonWs (c : Char) : Bool := c = ' ' || c = '\t' || c = '\n' || c = '\r'

def skipWs (cs : List Char) : List Char := cs.dropWhile jsonWs

/-- The common single-character string escapes: the self-representing
`\"` `\\` `\/`, then the control-character letters. -/
def escChar (c : Char) : Option Char :=
  if c = '"' ∨ c = '\\' ∨ c = '/' then some c
  else if c = 'n' then some '\n'
  else if c = 't' then some '\t'
  else if c = 'r' then some '\r'
  else if c = 'b' then some (Char.ofNat 8)
  else if c = 'f' then some (Char.ofNat 12)
  else none

/-- Parse the body of a JSON string after the opening quote; returns the
decoded characters and the input remaining after the closing quote. -/
def parseStrBody : List Char → Option (List Char × List Char)
  | [] => none
  | '"' :: rest => some ([], rest)
  | '\\' :: c :: rest =>
      match escChar c, parseStrBody rest with
      | some e, some (s, r) => some (e :: s, r)
      | _, _ => none
  | c :: rest =>
      match parseStrBody rest with
      | some (s, r) => some (c :: s, r)
      | none => none

/-- Longest leading run of decimal digits. -/
def spanDigits : List Char → List Char × List Char
  | [] => ([], [])
  | c :: cs =>
      if c.isDigit then
        let (d, r) := spanDigits cs
        (c :: d, r)
      else ([], c :: cs)

def digitsVal (ds : List Char) : ℕ :=
  ds.foldl (fun n c => 10 * n + (c.toNat - 48)) 0

/-- Parse a JSON number (optional minus, integer part, optional fraction). -/
def parseNum (cs : List Char) : Option (ℚ × List Char) :=
  let p := match cs with
    | '-' :: rest => (true, rest)
    | _ => (false, cs)
  match spanDigits p.2 with
  | ([], _) => none
  | (ds, rest) =>
      let ip : ℚ := (digitsVal ds : ℚ)
      match rest with
      | '.' :: rest2 =>
          match spanDigits rest2 with
          | ([], _) => none
          | (fs, rest3) =>
              let v := ip + (digitsVal fs : ℚ) / ((10 : ℚ) ^ fs.length)
              some (if p.1 then -v else v, rest3)
      | _ => some (if p.1 then -ip else ip, rest)

/-- If `p` is a leading pattern of `cs`, the input remaining after it. -/
def matchPat : List Char → List Char → Option (List Char)
  | [], cs => some cs
  | _, [] => none
  | p :: ps, c :: cs => if p = c then matchPat ps cs else none

/-- Parsing mode: a single value, the items of an array after `[`, or the
members of an object after the opening brace. -/
inductive JMode where
  | value : JMode
  | arrItems : JMode
  | objItems : JMode

/-- Recursive-descent JSON parser; in `arrItems`/`objItems` mode the result
is the `Json.arr`/`Json.obj` of the remaining items. -/
def parseJ : ℕ → JMode → List Char → Option (Json × List Char)
  | 0, _, _ => none
  | fuel + 1, JMode.value, cs =>
      let cs2 := skipWs cs
      match matchPat "true".data cs2 with
      | some rest => some (.bool true, rest)
      | none =>
      match matchPat "false".data cs2 with
      | some rest => some (.bool false, rest)
      | none =>
      match matchPat "null".data cs2 with
      | some rest => some (.null, rest)
      | none =>
      match cs2 with
      | '"' :: rest =>
          match parseStrBody rest with
          | some (s, r) => some (.str ⟨s⟩, r)
          | none => none
      | '[' :: rest =>
          match skipWs rest with
          | ']' :: r2 => some (.arr [], r2)
          | r2 => parseJ fuel JMode.arrItems r2
      | '\x7b' :: rest =>
          match skipWs rest with
          | '\x7d' :: r2 => some (.obj [], r2)
          | r2 => parseJ fuel JMode.objItems r2
      | cs3 => parseNum cs3 |>.map fun p => (.num p.1, p.2)
  | fuel + 1, JMode.arrItems, cs =>
      match parseJ fuel JMode.value cs with
      | none => none
      | some (v, r) =>
          match skipWs r with
          | ',' :: r2 =>
              match parseJ fuel JMode.arrItems r2 with
              | some (.arr xs, r3) => some (.arr (v :: xs), r3)
              | _ => none
          | ']' :: r2 => some (.arr [v], r2)
          | _ => none
  | fuel + 1, JMode.objItems, cs =>
      match skipWs cs with
      | '"' :: rest =>
          match parseStrBody rest with
          | none => none
          | some (k, r) =>
              match skipWs r with
              | ':' :: r2 =>
                  match parseJ fuel JMode.value r2 with
                  | none => none
                  | some (v, r3) =>
                      match skipWs r3 with
                      | ',' :: r4 =>
                          match parseJ fuel JMode.objItems r4 with
                          | some (.obj xs, r5) => some (.obj ((⟨k⟩, v) :: xs), r5)
                          | _ => none
                      | '\x7d' :: r4 => some (.obj [(⟨k⟩, v)], r4)
                      | _ => none
              | _ => none
      | _ => none

/-- Model of `json.loads`: parse a complete JSON document (only trailing whitespace
may follow); `none` models the `JSONDecodeError` the library raises. -/
def jsonLoads (s : String) : Option Json :=
  match parseJ (2 * s.data.length + 2) JMode.value s.data with
  | some (v, rest) => if skipWs rest = [] then some v else none
  | none => none

/-! ## `_parse_json_response`

The source runs `response.find("{")` and `response.rfind("}")`, slices the
response between them, and `json.loads` the slice; any exception is caught
and the empty dict is returned. -/

/-- Python `str.find` (restricted to a single character): index of the first
occurrence, `none` for Python's `-1`. -/
def findIdx (c : Char) : List Char → Option ℕ
  | [] => none
  | x :: xs => if x = c then some 0 else (findIdx c xs).map (· + 1)

/-- Python `str.rfind` (single character): index of the last occurrence. -/
def rfindIdx (c : Char) : List Char → Option ℕ
  | [] => none
  | x :: xs =>
      match rfindIdx c xs with
      | some j => some (j + 1)
      | none => if x = c then some 0 else none

/-- Model of `_parse_json_response` from `assessment_service.py`: slice from the
first opening brace through the last closing brace, `json.loads` the slice
(or, when no such slice exists, the whole response), and return the empty
dict when loading raises. -/
def parse_json_response (response : String) : Json :=
  let cs := response.data
  match findIdx '\x7b' cs, rfindIdx '\x7d' cs with
  | some start, some e =>
      if start < e + 1 then
        match jsonLoads ⟨(cs.drop start).take (e + 1 - start)⟩ with
        | some v => v
        | none => Json.obj []
      else
        match jsonLoads response with
        | some v => v
        | none => Json.obj []
  | _, _ =>
      match jsonLoads response with
      | some v => v
      | none => Json.obj []

/-! ## The spec's extraction policy, for comparison

The spec states the engine extracts "the first balanced brace-delimited
span" of the response.  `firstBalancedSpan` is modelled from those words:
scan to the first opening brace, then take characters until the matching
(depth-balanced) closing brace. -/

/-- Continue a balanced scan at nesting `depth`, accumulating `acc`. -/
def balancedFrom (depth : ℕ) (acc : List Char) : List Char → Option (List Char)
  | [] => none
  | c :: rest =>
      if c = '\x7b' then balancedFrom (depth + 1) (acc ++ [c]) rest
      else if c = '\x7d' then
        match depth with
        | 0 => none
        | 1 => some (acc ++ [c])
        | d + 2 => balancedFrom (d + 1) (acc ++ [c]) rest
      else balancedFrom depth (acc ++ [c]) rest

/-- Modelled from the spec: "the first balanced brace-delimited span" of a
response (`none` when the response holds no such span). -/
def firstBalancedSpan (s : String) : Option String :=
  match s.data.dropWhile (· ≠ '\x7b') with
  | [] => none
  | c :: rest => (balancedFrom 1 [c] rest).map fun l => ⟨l⟩

/-! ## Interactions and the transcript

`AIInterviewInteraction` rows carry a role, text content and an optional
audio duration; those are the fields the assessment reads. -/

inductive MessageRole where
  | system : MessageRole
  | assistant : MessageRole
  | user : MessageRole
  | tool : MessageRole
deriving DecidableEq, Repr

structure Interaction where
  role : MessageRole
  content : String
  audio_duration_seconds : Option ℚ
deriving DecidableEq, Repr

/-- The role label of `_build_transcript`: `"Interviewer"` for the
assistant role, `"Candidate"` for every other role. -/
def role_label (r : MessageRole) : String :=
  if r = MessageRole.assistant then "Interviewer" else "Candidate"

/-- One transcript line, `"<label>: <content>"`. -/
def transcriptLine (i : Interaction) : String :=
  role_label i.role ++ ": " ++ i.content

/-- Python `sep.join`. -/
def strJoin (sep : String) : List String → String
  | [] => ""
  | [x] => x
  | x :: y :: xs => x ++ sep ++ strJoin sep (y :: xs)

/-- Model of `_build_transcript` from `assessment_service.py`. -/
def build_transcript (interactions : List Interaction) : String :=
  strJoin "\n\n" (interactions.map transcriptLine)

/-! ## Objective communication metrics

`_assess_communication` derives total word count, total audio duration,
filler-word count and words-per-minute from the candidate-authored
(`role == USER`) interactions. -/

/-- Python `str.split()` whitespace. -/
def pySpace (c : Char) : Bool :=
  c = ' ' || c = '\t' || c = '\n' || c = '\r' || c = '\x0b' || c = '\x0c'

def countWordsAux : Bool → List Char → ℕ
  | _, [] => 0
  | inWord, c :: rest =>
      if pySpace c then countWordsAux false rest
      else (if inWord then 0 else 1) + countWordsAux true rest

/-- Python `len(content.split())`: number of maximal non-whitespace runs. -/
def countWords (s : String) : ℕ := countWordsAux false s.data

/-- A regex word character (`\w` over the ASCII text at hand). -/
def isWordChar (c : Char) : Bool := c.isAlphanum || c = '_'

/-- The filler lexicon of the source regex
`\b(um|uh|like|you know|basically|actually|literally)\b`,
in alternation order. -/
def fillerPatterns : List (List Char) :=
  ["um".data, "uh".data, "like".data, "you know".data,
   "basically".data, "actually".data, "literally".data]

/-- There is a word boundary between `prev` and the current position. -/
def boundaryBefore (prev : Option Char) : Bool :=
  match prev with
  | none => true
  | some c => !isWordChar c

/-- A word boundary follows, i.e. the rest does not begin with a word
character. -/
def boundaryAfter (rest : List Char) : Bool :=
  match rest with
  | [] => true
  | c :: _ => !isWordChar c

/-- First pattern of `pats` matching at the current position with word
boundaries on both sides; returns it with the input remaining after it. -/
def pickPat (prev : Option Char) (cs : List Char) :
    List (List Char) → Option (List Char × List Char)
  | [] => none
  | p :: ps =>
      match matchPat p cs with
      | some rest =>
          if boundaryBefore prev && boundaryAfter rest then some (p, rest)
          else pickPat prev cs ps
      | none => pickPat prev cs ps

/-- Left-to-right non-overlapping scan counting filler matches, as
`re.findall` does; `prev` is the character before the current position. -/
def fillerScan : ℕ → Option Char → List Char → ℕ
  | 0, _, _ => 0
  | _ + 1, _, [] => 0
  | fuel + 1, prev, c :: rest =>
      match pickPat prev (c :: rest) fillerPatterns with
      | some (p, after) => 1 + fillerScan fuel (some (p.getLastD ' ')) after
      | none => fillerScan fuel (some c) rest

/-- Filler-word count of one interaction:
`len(re.findall(pattern, content.lower()))`. -/
def fillerCount (content : String) : ℕ :=
  let lowered := content.data.map Char.toLower
  fillerScan (lowered.length + 1) none lowered

/-- The candidate-authored interactions (`role == MessageRole.USER`). -/
def candidateInteractions (interactions : List Interaction) : List Interaction :=
  interactions.filter fun i => i.role = MessageRole.user

/-- Total `len(content.split())` over candidate turns. -/
def totalWords (interactions : List Interaction) : ℕ :=
  (candidateInteractions interactions).foldl
    (fun n i => n + countWords i.content) 0

/-- Total audio duration over candidate turns; a turn with no duration, or
a falsy `0` duration, contributes nothing
(`if interaction.audio_duration_seconds:`). -/
def totalDuration (interactions : List Interaction) : ℚ :=
  (candidateInteractions interactions).foldl
    (fun d i =>
      match i.audio_duration_seconds with
      | some a => if a = 0 then d else d + a
      | none => d) 0

/-- Total filler-word count over candidate turns. -/
def totalFiller (interactions : List Interaction) : ℕ :=
  (candidateInteractions interactions).foldl
    (fun n i => n + fillerCount i.content) 0

/-- Model of `words_per_minute = (total_words / total_duration * 60) if
total_duration > 0 else 150`. -/
def words_per_minute (interactions : List Interaction) : ℚ :=
  if 0 < totalDuration interactions then
    (totalWords interactions : ℚ) / totalDuration interactions * 60
  else 150

/-! ## The three scored passes

Each pass wraps its model call in `try/except`: a failed call, or any
exception raised while the parsed payload is turned into scores, yields
the pass's fixed neutral fallback (all dimensions 70).  The model call is
embedded as an `Option String` input — `none` is a raised call, `some c`
the response text.  A payload value that is present but non-numeric is
represented by the key's neutral default (the source would carry the raw
value into the session record; no claim exercises that corner). -/

/-- A JSON value as a Python number: numbers are themselves, booleans are
`int` subclasses (`True` = 1, `False` = 0), everything else is not a
number. -/
def asNum : Json → Option ℚ
  | Json.num q => some q
  | Json.bool b => some (if b then 1 else 0)
  | _ => none

/-- Python dict lookup on a parsed object: with duplicate keys the later
entry wins, as in `json.loads`. -/
def dictGet (d : List (String × Json)) (k : String) : Option Json :=
  (d.reverse.find? fun p => p.1 = k).map fun p => p.2

/-- Python `scores.get(key, default)` read as a number. -/
def numGetD (d : List (String × Json)) (k : String) (dflt : ℚ) : ℚ :=
  match dictGet d k with
  | some v => (asNum v).getD dflt
  | none => dflt

/-- Model of `_assess_communication` (scoring part): on a successful call, parse the
response and read clarity/confidence/pace with default 70, deriving
`verbal` as the mean of clarity and confidence; any exception —
a failed call, a non-dict payload (`.get` raises), or non-numeric
clarity/confidence (the mean's arithmetic raises) — yields the neutral
fallback.  `words_per_minute` and `filler_word_count` are computed before
the call and survive every fallback. -/
def assess_communication (wpm : ℚ) (filler : ℕ)
    (llmResponse : Option String) : CommunicationScores :=
  let fb : CommunicationScores := ⟨70, 70, 70, 70, wpm, filler⟩
  match llmResponse with
  | none => fb
  | some content =>
      match parse_json_response content with
      | Json.obj d =>
          match asNum ((dictGet d "clarity").getD (Json.num 70)),
              asNum ((dictGet d "confidence").getD (Json.num 70)),
              asNum ((dictGet d "pace").getD (Json.num 70)) with
          | some cl, some co, some pa => ⟨(cl + co) / 2, cl, co, pa, wpm, filler⟩
          | _, _, _ => fb
      | _ => fb

/-- Model of `_assess_content`: four scores read with default 70; a failed call or
non-dict payload yields the neutral fallback. -/
def assess_content (llmResponse : Option String) : ContentScores :=
  let fb : ContentScores := ⟨70, 70, 70, 70⟩
  match llmResponse with
  | none => fb
  | some content =>
      match parse_json_response content with
      | Json.obj d =>
          ⟨numGetD d "technical_accuracy" 70, numGetD d "problem_solving" 70,
           numGetD d "structure" 70, numGetD d "relevance" 70⟩
      | _ => fb

/-- Python `str.lower()` (character-wise lowercasing). -/
def pyLower (s : String) : String := ⟨s.data.map Char.toLower⟩

/-- Model of `_assess_behavioral`: for any interview type other than `"behavioral"`
(compared after `.lower()`) the three scores are the explicit `None`s;
otherwise the scores are read with default 70, with the neutral fallback on
a failed call or non-dict payload. -/
def assess_behavioral (interview_type : String)
    (llmResponse : Option String) : Option BehavioralScores :=
  if pyLower interview_type ≠ "behavioral" then none
  else some (match llmResponse with
    | none => ⟨70, 70, 70⟩
    | some content =>
        match parse_json_response content with
        | Json.obj d =>
            ⟨numGetD d "star_method" 70, numGetD d "leadership" 70,
             numGetD d "teamwork" 70⟩
        | _ => ⟨70, 70, 70⟩)

/-- The scoring part of the assessment bundle built by
`assess_interview_session`. -/
structure Assessment where
  communication_scores : CommunicationScores
  content_scores : ContentScores
  behavioral_scores : Option BehavioralScores
  overall_score : ℚ
deriving DecidableEq, Repr

/-- Model of `assess_interview_session` (scoring part): the objective metrics, the
three independent passes, and the weighted overall score.  The three model
calls are independent inputs. -/
def assess_interview (interactions : List Interaction) (interview_type : String)
    (commResp contentResp behavResp : Option String) : Assessment :=
  let wpm := words_per_minute interactions
  let filler := totalFiller interactions
  let c := assess_communication wpm filler commResp
  let t := assess_content contentResp
  let b := assess_behavioral interview_type behavResp
  { communication_scores := c
    content_scores := t
    behavioral_scores := b
    overall_score := calculate_overall_score c t b }

/-! ## The interview workflow (`langgraph_interview_service.py`)

Nodes are state transformers; the model calls of the conduct and feedback
nodes are `Option String` inputs (`none` = the call raised).  The graph is
prepare → (conduct → analyze → check)* → feedback, looping while
`_should_continue` returns `"continue"`. -/

inductive Message where
  | system (content : String) : Message
  | ai (content : String) : Message
  | human (content : String) : Message
deriving DecidableEq, Repr

def Message.isHuman : Message → Bool
  | Message.human _ => true
  | _ => false

def Message.text : Message → String
  | Message.system c => c
  | Message.ai c => c
  | Message.human c => c

/-- Per-question analysis recorded by `_analyze_response_node`
(the wall-clock timestamp is not modelled). -/
structure Analysis where
  response_length : ℕ
  word_count : ℕ
deriving DecidableEq, Repr

/-- Model of `InterviewState` from `langgraph_interview_service.py`;
`analysis_results` is the dict as an insertion-ordered key/value list. -/
structure InterviewState where
  messages : List Message
  user_id : ℤ
  session_id : ℤ
  interview_type : String
  user_context : String
  current_question_count : ℕ
  max_questions : ℕ
  session_status : String
  analysis_results : List (String × Analysis)
deriving DecidableEq, Repr

/-- Python dict assignment `m[k] = v`: overwrite in place or append. -/
def setKey (m : List (String × Analysis)) (k : String) (v : Analysis) :
    List (String × Analysis) :=
  if m.any (fun p => p.1 = k) then
    m.map fun p => if p.1 = k then (k, v) else p
  else m ++ [(k, v)]

/-- Model of `_prepare_context_node`: sets the user context, resets the question
count to 0, the maximum to 5, the status to `"active"` and the analysis
map to empty. -/
def prepare_context_node (s : InterviewState) : InterviewState :=
  { s with
    user_context :=
      "User ID: " ++ toString s.user_id ++ ", Interview Type: " ++ s.interview_type
    current_question_count := 0
    max_questions := 5
    session_status := "active"
    analysis_results := [] }

/-- Model of `_conduct_interview_node`: appends the model reply, or on a raised
call the fixed apologetic utterance, to the message history. -/
def conduct_interview_node (llmResponse : Option String)
    (s : InterviewState) : InterviewState :=
  match llmResponse with
  | some r => { s with messages := s.messages ++ [Message.ai r] }
  | none =>
      { s with messages := s.messages ++
          [Message.ai "I apologize, but I encountered an error. Let's continue."] }

/-- Model of `_analyze_response_node`: records length metrics of the last
human message under the key `question_<count>`; a state with no human
message is returned unchanged. -/
def analyze_response_node (s : InterviewState) : InterviewState :=
  match (s.messages.filter Message.isHuman).getLast? with
  | none => s
  | some m =>
      { s with analysis_results :=
          (setKey s.analysis_results
            ("question_" ++ toString s.current_question_count)
            ⟨m.text.length, countWords m.text⟩) }

/-- Model of `_check_completion_node`: increments the question count and marks the
session `"completed"` once the count reaches the maximum. -/
def check_completion_node (s : InterviewState) : InterviewState :=
  let s' := { s with current_question_count := s.current_question_count + 1 }
  if s'.max_questions ≤ s'.current_question_count then
    { s' with session_status := "completed" }
  else s'

/-- Model of `_should_continue`: `"end"` exactly when the status is
`"completed"`. -/
def should_continue (s : InterviewState) : String :=
  if s.session_status = "completed" then "end" else "continue"

/-- Model of `_generate_feedback_node`: appends the feedback reply; a raised call is
logged and the state returned unchanged. -/
def generate_feedback_node (llmResponse : Option String)
    (s : InterviewState) : InterviewState :=
  match llmResponse with
  | some r => { s with messages := s.messages ++ [Message.ai r] }
  | none => s

/-- One conduct → analyze → check cycle of the graph. -/
def cycle (llmResponse : Option String) (s : InterviewState) : InterviewState :=
  check_completion_node (analyze_response_node (conduct_interview_node llmResponse s))

/-- The loop unrolled over a list of per-cycle model outcomes. -/
def run_cycles (rs : List (Option String)) (s : InterviewState) : InterviewState :=
  rs.foldl (fun st r => cycle r st) s

/-- The conditional loop of the compiled graph: run cycles until
`_should_continue` says `"end"`, also returning the number of cycles
executed; `fuel` bounds the unrolling.  `oracle n` is the conduct-node
model outcome of cycle `n`. -/
def run_loop : ℕ → (ℕ → Option String) → InterviewState → ℕ → InterviewState × ℕ
  | 0, _, s, n => (s, n)
  | fuel + 1, oracle, s, n =>
      let s' := cycle (oracle n) s
      if should_continue s' = "end" then (s', n + 1)
      else run_loop fuel oracle s' (n + 1)

/-- The whole compiled workflow: prepare once, loop, generate feedback
once. -/
def run_workflow (fuel : ℕ) (oracle : ℕ → Option String)
    (fbResponse : Option String) (s : InterviewState) : InterviewState × ℕ :=
  let p := run_loop fuel oracle (prepare_context_node s) 0
  (generate_feedback_node fbResponse p.1, p.2)

/-! ## Context retrieval (`rag_service.py`)

The vector store is embedded as a ranked document list; a raised provider
call is the `Except.error` input. -/

structure StoredDoc where
  user_id : ℤ
  content : String
  docType : String
deriving DecidableEq, Repr

/-- Model of `similarity_search(query, k, filter)`: the provider's top-`k` ranked
results among this user's documents (rank order is the store's). -/
def similarity_search (store : List StoredDoc) (user_id : ℤ) (k : ℕ) :
    List StoredDoc :=
  (store.filter fun d => d.user_id = user_id).take k

/-- Model of `retrieve_user_context`: map the search results to content/type pairs;
a raised provider call is caught and yields the empty list. -/
def retrieve_user_context (store : Except Unit (List StoredDoc))
    (user_id : ℤ) (k : ℕ) : List (String × String) :=
  match store with
  | Except.error _ => []
  | Except.ok docs =>
      (similarity_search docs user_id k).map fun d => (d.content, d.docType)

/-- Model of `build_personalized_prompt`: retrieve up to 5 context documents, join
their contents (or the generic "No previous context available." when there
are none), and splice them into the coach prompt. -/
def build_personalized_prompt (store : Except Unit (List StoredDoc))
    (user_id : ℤ) (interview_type : String) : String :=
  let context_docs := retrieve_user_context store user_id 5
  let context_parts := context_docs.map fun d => d.1
  let user_context :=
    if context_parts.isEmpty then "No previous context available."
    else strJoin "\n\n" context_parts
  "You are an experienced interview coach conducting a " ++ interview_type ++
  " interview.\n\n**Candidate Context:**\n" ++ user_context ++
  "\n\n**Your Role:**\n- Conduct a realistic " ++ interview_type ++
  " interview\n- Ask relevant questions based on the candidate's background and experience\n" ++
  "- Provide real-time feedback and encouragement\n" ++
  "- Adapt questions based on the candidate's responses\n" ++
  "- Be supportive but maintain professional interview standards\n" ++
  "- After each response, provide brief constructive feedback before moving to the next question\n\n" ++
  "**Interview Guidelines:**\n" ++
  "- Start with a personalized introduction that references the candidate's background\n" ++
  "- Ask 3-5 relevant questions for this interview session\n" ++
  "- Listen carefully to responses and ask follow-up questions when needed\n" ++
  "- Provide balanced feedback highlighting both strengths and areas for improvement\n" ++
  "- End with actionable recommendations for improvement\n\n" ++
  "Begin the interview now with a warm, personalized introduction."

/-! ## Failure predicates and index specifications used by the theorems -/

/-- A scoring pass's model step failed: the call raised, or its output was
unparseable (the defensive parse degenerated to the empty dict). -/
def passFailed (r : Option String) : Prop :=
  r = none ∨ ∃ c, r = some c ∧ parse_json_response c = Json.obj []

/-- Index `i` is that of the first occurrence of `c` in `cs`. -/
def IsFirstIdx (c : Char) (cs : List Char) (i : ℕ) : Prop :=
  cs.get? i = some c ∧ ∀ k, k < i → cs.get? k ≠ some c

/-- Index `j` is that of the last occurrence of `c` in `cs`. -/
def IsLastIdx (c : Char) (cs : List Char) (j : ℕ) : Prop :=
  cs.get? j = some c ∧ ∀ k, k < cs.length → j < k → cs.get? k ≠ some c

instance (c : Char) (cs : List Char) (i : ℕ) : Decidable (IsFirstIdx c cs i) := by
  unfold IsFirstIdx
  infer_instance

instance (c : Char) (cs : List Char) (j : ℕ) : Decidable (IsLastIdx c cs j) := by
  unfold IsLastIdx
  infer_instance

/-! # Theorems -/

/-- C1: the overall score is 0.30 times the mean of the three
communication scores plus 0.50 times the mean of the four content scores,
plus — exactly when behavioral scores are present — 0.20 times the mean of
the three behavioral scores; when they are absent the 0.30/0.50 weights
are used as-is (no renormalization), and the result is rounded to 2
decimal places.  `calculate_overall_score` is a Lean function of the
dimension scores alone, so the computation is pure and deterministic. -/
theorem overall_score_weighted (c : CommunicationScores) (t : ContentScores)
    (b : BehavioralScores) :
    calculate_overall_score c t (some b) =
      round2 ((30 / 100) *
          ((c.clarity_score + c.confidence_score + c.pace_score) / 3) +
        (50 / 100) *
          ((t.technical_accuracy_score + t.problem_solving_score +
            t.structure_score + t.relevance_score) / 4) +
        (20 / 100) *
          ((b.star_method_score + b.leadership_score + b.teamwork_score) / 3)) ∧
    calculate_overall_score c t none =
      round2 ((30 / 100) *
          ((c.clarity_score + c.confidence_score + c.pace_score) / 3) +
        (50 / 100) *
          ((t.technical_accuracy_score + t.problem_solving_score +
            t.structure_score + t.relevance_score) / 4)) := by
  constructor
  · exact congrArg round2 (by ring)
  · exact congrArg round2 (by ring)

/-- C4: the behavioral scoring pass produces scores exactly when the
session's interview type equals `"behavioral"` after lowercasing; for any
other type the three scores are the explicit `None`s, and the behavioral
term is excluded from the overall aggregation (the overall score of a
behavioral-less bundle is just the 0.30/0.50 weighted sum). -/
theorem behavioral_pass_iff_behavioral_type (ty : String) (r : Option String) :
    ((assess_behavioral ty r).isSome ↔ pyLower ty = "behavioral") ∧
    (pyLower ty ≠ "behavioral" → assess_behavioral ty r = none) ∧
    (∀ (c : CommunicationScores) (t : ContentScores),
      calculate_overall_score c t none =
        round2 ((30 / 100) *
            ((c.clarity_score + c.confidence_score + c.pace_score) / 3) +
          (50 / 100) *
            ((t.technical_accuracy_score + t.problem_solving_score +
              t.structure_score + t.relevance_score) / 4))) := by
  refine ⟨?_, ?_, fun c t => congrArg round2 (by ring)⟩
  · unfold assess_behavioral
    by_cases h : pyLower ty = "behavioral" <;> simp [h]
  · intro h
    unfold assess_behavioral
    simp [h]

/-- Witness for C4 at concrete interview types. -/
theorem behavioral_pass_iff_behavioral_type_witness :
    assess_behavioral "Technical" none = none ∧
    (assess_behavioral "BEHAVIORAL" none).isSome = true := by
  constructor
  · exact (behavioral_pass_iff_behavioral_type "Technical" none).2.1 (by decide)
  · exact ((behavioral_pass_iff_behavioral_type "BEHAVIORAL" none).1).mpr (by decide)

/-- C8: words-per-minute falls back to the fixed 150 wpm baseline when the
total recorded audio duration over candidate turns is zero, and otherwise
equals total words divided by total minutes. -/
theorem wpm_zero_duration_baseline (l : List Interaction) :
    (totalDuration l = 0 → words_per_minute l = 150) ∧
    (0 < totalDuration l →
      words_per_minute l = (totalWords l : ℚ) / (totalDuration l / 60)) := by
  constructor
  · intro h
    unfold words_per_minute
    rw [h]
    norm_num
  · intro h
    unfold words_per_minute
    rw [if_pos h]
    have hd : totalDuration l ≠ 0 := ne_of_gt h
    field_simp

/-- Witness for C8: a candidate turn with no duration data reports the 150
baseline; a 3-word turn over 30 recorded seconds reports 6 wpm. -/
theorem wpm_zero_duration_baseline_witness :
    words_per_minute [⟨MessageRole.user, "three hundred words", none⟩] = 150 ∧
    words_per_minute [⟨MessageRole.user, "a b c", some 30⟩] = 6 := by
  constructor
  · exact (wpm_zero_duration_baseline _).1 (by decide)
  · have h := (wpm_zero_duration_baseline
      [⟨MessageRole.user, "a b c", some 30⟩]).2
      (by norm_num [totalDuration, candidateInteractions])
    rw [h]
    have hw : totalWords [⟨MessageRole.user, "a b c", some 30⟩] = 3 := by decide
    have hd : totalDuration [⟨MessageRole.user, "a b c", some 30⟩] = 30 := by
      simp [totalDuration, candidateInteractions]
    rw [hw, hd]
    norm_num

/-- C10: the transcript builder labels a line `"Interviewer:"` exactly for
the assistant role and `"Candidate:"` for every other role — user, but
also system and tool, whose turns are therefore presented as candidate
utterances to the scoring and feedback passes. -/
theorem transcript_role_labels (c : String) (ad : Option ℚ) :
    transcriptLine ⟨MessageRole.assistant, c, ad⟩ = "Interviewer: " ++ c ∧
    transcriptLine ⟨MessageRole.user, c, ad⟩ = "Candidate: " ++ c ∧
    transcriptLine ⟨MessageRole.system, c, ad⟩ = "Candidate: " ++ c ∧
    transcriptLine ⟨MessageRole.tool, c, ad⟩ = "Candidate: " ++ c ∧
    build_transcript
        [⟨MessageRole.system, "sys", none⟩, ⟨MessageRole.tool, "tool", none⟩] =
      "Candidate: sys\n\nCandidate: tool" := by
  refine ⟨?_, ?_, ?_, ?_, rfl⟩ <;> rfl

/-- C9: context retrieval returns the empty list when the provider call
raises or the user has no indexed documents, and the personalized prompt
is never empty; a failed retrieval yields exactly the same generic prompt
as a user with no documents at all. -/
theorem retrieve_context_fallbacks :
    (∀ (uid : ℤ) (k : ℕ), retrieve_user_context (Except.error ()) uid k = []) ∧
    (∀ (docs : List StoredDoc) (uid : ℤ) (k : ℕ),
      (∀ d ∈ docs, d.user_id ≠ uid) →
      retrieve_user_context (Except.ok docs) uid k = []) ∧
    (∀ (store : Except Unit (List StoredDoc)) (uid : ℤ) (ty : String),
      build_personalized_prompt store uid ty ≠ "") ∧
    (∀ (uid uid' : ℤ) (ty : String),
      build_personalized_prompt (Except.error ()) uid ty =
        build_personalized_prompt (Except.ok []) uid' ty) := by
  refine ⟨fun uid k => rfl, ?_, ?_, fun uid uid' ty => by simp [build_personalized_prompt, retrieve_user_context, similarity_search]⟩
  · intro docs uid k h
    simp only [retrieve_user_context, similarity_search]
    rw [List.filter_eq_nil_iff.mpr]
    · simp
    · intro d hd
      simpa using h d hd
  intro store uid ty h
  have hlen := congrArg String.length h
  rw [build_personalized_prompt] at hlen
  simp only [String.length_append] at hlen
  have hpos : 0 < "You are an experienced interview coach conducting a ".length := by
    decide
  have h0 : "".length = 0 := rfl
  omega

/-- Witness for C9 at a concrete user with a store holding only another
user's document. -/
theorem retrieve_context_fallbacks_witness :
    retrieve_user_context (Except.error ()) 7 5 = [] ∧
    retrieve_user_context (Except.ok [⟨3, "other user resume", "resume_chunk"⟩]) 7 5 = [] ∧
    build_personalized_prompt (Except.error ()) 7 "general" ≠ "" := by
  refine ⟨retrieve_context_fallbacks.1 7 5, ?_, retrieve_context_fallbacks.2.2.1 _ 7 "general"⟩
  exact retrieve_context_fallbacks.2.1 [⟨3, "other user resume", "resume_chunk"⟩] 7 5
    (by decide)

/-- C6: the conduct-interview step only appends: the input history is a
prefix of the output history, exactly one message is added, a failed model
call appends the fixed apologetic utterance instead of raising, and the
question count and session status are untouched. -/
theorem conduct_appends_single_message (r : Option String) (s : InterviewState) :
    (conduct_interview_node r s).messages.take s.messages.length = s.messages ∧
    (conduct_interview_node r s).messages.length = s.messages.length + 1 ∧
    (conduct_interview_node none s).messages =
      s.messages ++
        [Message.ai "I apologize, but I encountered an error. Let's continue."] ∧
    (∀ t : String, (conduct_interview_node (some t) s).messages =
      s.messages ++ [Message.ai t]) ∧
    (conduct_interview_node r s).current_question_count =
      s.current_question_count ∧
    (conduct_interview_node r s).session_status = s.session_status := by
  cases r <;>
    simp [conduct_interview_node, List.take_left]

theorem assess_communication_failed (w : ℚ) (f : ℕ) (r : Option String)
    (h : passFailed r) : assess_communication w f r = ⟨70, 70, 70, 70, w, f⟩ := by
  rcases h with h | ⟨c, rfl, hc⟩
  · subst h; rfl
  · unfold assess_communication
    simp only [hc]
    norm_num [dictGet, asNum]

theorem assess_content_failed (r : Option String)
    (h : passFailed r) : assess_content r = ⟨70, 70, 70, 70⟩ := by
  rcases h with h | ⟨c, rfl, hc⟩
  · subst h; rfl
  · unfold assess_content
    simp only [hc]
    rfl

theorem assess_behavioral_failed (ty : String) (r : Option String)
    (hty : pyLower ty = "behavioral") (h : passFailed r) :
    assess_behavioral ty r = some ⟨70, 70, 70⟩ := by
  rcases h with h | ⟨c, rfl, hc⟩
  · subst h; unfold assess_behavioral; simp [hty]
  · unfold assess_behavioral
    simp only [hty, hc]
    simp [numGetD, dictGet]

/-- C5: when exactly one of the three scoring passes fails — the model
call raised or its output was unparseable — that pass's numeric fields all
take the fixed neutral value 70 (communication additionally keeps the
objective wpm/filler metrics), the other two passes' results are exactly
what they produce from their own inputs, and the bundle is still complete
(`assess_interview` is total, so no failure aborts it). -/
theorem single_pass_failure_isolated (l : List Interaction) (ty : String)
    (cr tr br : Option String) :
    (passFailed cr →
      (assess_interview l ty cr tr br).communication_scores =
        ⟨70, 70, 70, 70, words_per_minute l, totalFiller l⟩ ∧
      (assess_interview l ty cr tr br).content_scores = assess_content tr ∧
      (assess_interview l ty cr tr br).behavioral_scores =
        assess_behavioral ty br) ∧
    (passFailed tr →
      (assess_interview l ty cr tr br).content_scores = ⟨70, 70, 70, 70⟩ ∧
      (assess_interview l ty cr tr br).communication_scores =
        assess_communication (words_per_minute l) (totalFiller l) cr ∧
      (assess_interview l ty cr tr br).behavioral_scores =
        assess_behavioral ty br) ∧
    (passFailed br → pyLower ty = "behavioral" →
      (assess_interview l ty cr tr br).behavioral_scores = some ⟨70, 70, 70⟩ ∧
      (assess_interview l ty cr tr br).communication_scores =
        assess_communication (words_per_minute l) (totalFiller l) cr ∧
      (assess_interview l ty cr tr br).content_scores = assess_content tr) := by
  refine ⟨fun h => ⟨?_, rfl, rfl⟩, fun h => ⟨?_, rfl, rfl⟩, fun h hty => ⟨?_, rfl, rfl⟩⟩
  · exact assess_communication_failed _ _ _ h
  · exact assess_content_failed _ h
  · exact assess_behavioral_failed _ _ hty h

/-- Witness for C5: with a raised communication call (and, in a second
bundle, an unparseable content payload) the failed pass scores 70
everywhere while the other passes keep their parsed scores. -/
theorem single_pass_failure_isolated_witness :
    ((assess_interview [] "behavioral" none
        (some "\x7b\"technical_accuracy\": 90, \"problem_solving\": 85, \"structure\": 80, \"relevance\": 75\x7d")
        (some "\x7b\"star_method\": 88, \"leadership\": 77, \"teamwork\": 66\x7d")).communication_scores =
      ⟨70, 70, 70, 70, 150, 0⟩ ∧
      (assess_interview [] "behavioral" none
        (some "\x7b\"technical_accuracy\": 90, \"problem_solving\": 85, \"structure\": 80, \"relevance\": 75\x7d")
        (some "\x7b\"star_method\": 88, \"leadership\": 77, \"teamwork\": 66\x7d")).content_scores =
      ⟨90, 85, 80, 75⟩ ∧
      (assess_interview [] "behavioral" none
        (some "\x7b\"technical_accuracy\": 90, \"problem_solving\": 85, \"structure\": 80, \"relevance\": 75\x7d")
        (some "\x7b\"star_method\": 88, \"leadership\": 77, \"teamwork\": 66\x7d")).behavioral_scores =
      some ⟨88, 77, 66⟩) ∧
    (assess_interview [] "technical"
        (some "\x7b\"clarity\": 80, \"confidence\": 90, \"pace\": 85\x7d")
        (some "model went off the rails, no payload")
        none).content_scores = ⟨70, 70, 70, 70⟩ := by
  constructor
  · have h := (single_pass_failure_isolated [] "behavioral" none
      (some "\x7b\"technical_accuracy\": 90, \"problem_solving\": 85, \"structure\": 80, \"relevance\": 75\x7d")
      (some "\x7b\"star_method\": 88, \"leadership\": 77, \"teamwork\": 66\x7d")).1
      (Or.inl rfl)
    refine ⟨?_, ?_, ?_⟩
    · rw [h.1]
      decide
    · rw [h.2.1]
      decide
    · rw [h.2.2]
      decide
  · exact ((single_pass_failure_isolated [] "technical"
      (some "\x7b\"clarity\": 80, \"confidence\": 90, \"pace\": 85\x7d")
      (some "model went off the rails, no payload")
      none).2.1
      (Or.inr ⟨_, rfl, by rfl⟩)).1

/-- C7: filler-word counting over the fixed lexicon is case-insensitive
(two texts equal up to case have the same count) and whole-word: the
phrase "Like totally, I liked it" counts exactly one match of "like" and
does not count "liked". -/
theorem filler_count_case_insensitive_whole_words :
    (∀ s t : String, s.data.map Char.toLower = t.data.map Char.toLower →
      fillerCount s = fillerCount t) ∧
    fillerCount "Like totally, I liked it" = 1 := by
  constructor
  · intro s t h
    unfold fillerCount
    rw [h]
  · decide

/-- Witness for C7 at concrete mixed-case inputs. -/
theorem filler_count_case_insensitive_whole_words_witness :
    fillerCount "LIKE, You Know, UM" = fillerCount "like, you know, um" := by
  exact filler_count_case_insensitive_whole_words.1 _ _ (by decide)

/-! ### Workflow invariants -/

theorem conduct_preserves_counters (r : Option String) (s : InterviewState) :
    (conduct_interview_node r s).current_question_count = s.current_question_count ∧
    (conduct_interview_node r s).max_questions = s.max_questions ∧
    (conduct_interview_node r s).session_status = s.session_status := by
  cases r <;> exact ⟨rfl, rfl, rfl⟩

theorem analyze_preserves_counters (s : InterviewState) :
    (analyze_response_node s).current_question_count = s.current_question_count ∧
    (analyze_response_node s).max_questions = s.max_questions ∧
    (analyze_response_node s).session_status = s.session_status := by
  unfold analyze_response_node
  cases (s.messages.filter Message.isHuman).getLast? <;> exact ⟨rfl, rfl, rfl⟩

theorem check_count (s : InterviewState) :
    (check_completion_node s).current_question_count =
      s.current_question_count + 1 := by
  simp only [check_completion_node]
  split <;> rfl

theorem check_max (s : InterviewState) :
    (check_completion_node s).max_questions = s.max_questions := by
  simp only [check_completion_node]
  split <;> rfl

theorem check_status_lt (s : InterviewState)
    (h : s.current_question_count + 1 < s.max_questions) :
    (check_completion_node s).session_status = s.session_status := by
  unfold check_completion_node
  rw [if_neg (by simp; omega)]

theorem check_status_ge (s : InterviewState)
    (h : s.max_questions ≤ s.current_question_count + 1) :
    (check_completion_node s).session_status = "completed" := by
  unfold check_completion_node
  rw [if_pos (by simpa using h)]

theorem cycle_count (r : Option String) (s : InterviewState) :
    (cycle r s).current_question_count = s.current_question_count + 1 := by
  unfold cycle
  rw [check_count, (analyze_preserves_counters _).1, (conduct_preserves_counters _ _).1]

theorem cycle_max (r : Option String) (s : InterviewState) :
    (cycle r s).max_questions = s.max_questions := by
  unfold cycle
  rw [check_max, (analyze_preserves_counters _).2.1, (conduct_preserves_counters _ _).2.1]

theorem cycle_status_lt (r : Option String) (s : InterviewState)
    (h : s.current_question_count + 1 < s.max_questions) :
    (cycle r s).session_status = s.session_status := by
  unfold cycle
  rw [check_status_lt, (analyze_preserves_counters _).2.2,
    (conduct_preserves_counters _ _).2.2]
  rw [(analyze_preserves_counters _).1, (conduct_preserves_counters _ _).1,
    (analyze_preserves_counters _).2.1, (conduct_preserves_counters _ _).2.1]
  exact h

theorem cycle_status_ge (r : Option String) (s : InterviewState)
    (h : s.max_questions ≤ s.current_question_count + 1) :
    (cycle r s).session_status = "completed" := by
  unfold cycle
  rw [check_status_ge]
  rw [(analyze_preserves_counters _).1, (conduct_preserves_counters _ _).1,
    (analyze_preserves_counters _).2.1, (conduct_preserves_counters _ _).2.1]
  exact h

theorem run_cycles_cons (r : Option String) (rs : List (Option String))
    (s : InterviewState) :
    run_cycles (r :: rs) s = run_cycles rs (cycle r s) := rfl

theorem run_cycles_count (rs : List (Option String)) :
    ∀ s : InterviewState, (run_cycles rs s).current_question_count =
      s.current_question_count + rs.length := by
  induction rs with
  | nil => intro s; rfl
  | cons r rs ih =>
      intro s
      rw [run_cycles_cons, ih, cycle_count]
      simp only [List.length_cons]
      omega

theorem run_cycles_max (rs : List (Option String)) :
    ∀ s : InterviewState, (run_cycles rs s).max_questions = s.max_questions := by
  induction rs with
  | nil => intro s; rfl
  | cons r rs ih =>
      intro s
      rw [run_cycles_cons, ih, cycle_max]

theorem run_cycles_status_lt (rs : List (Option String)) :
    ∀ s : InterviewState,
      s.current_question_count + rs.length < s.max_questions →
      (run_cycles rs s).session_status = s.session_status := by
  induction rs with
  | nil => intro s _; rfl
  | cons r rs ih =>
      intro s h
      simp only [List.length_cons] at h
      rw [run_cycles_cons, ih, cycle_status_lt]
      · omega
      · rw [cycle_count, cycle_max]; omega

theorem run_cycles_status_ge (rs : List (Option String)) :
    ∀ s : InterviewState,
      s.max_questions ≤ s.current_question_count + rs.length →
      1 ≤ rs.length →
      (run_cycles rs s).session_status = "completed" := by
  induction rs with
  | nil => intro s _ h; simp at h
  | cons r rs ih =>
      intro s h _
      simp only [List.length_cons] at h
      match rs with
      | [] => exact cycle_status_ge r s (by simpa using h)
      | r2 :: rs2 =>
          rw [run_cycles_cons]
          apply ih
          · rw [cycle_count, cycle_max]
            simp only [List.length_cons] at h ⊢
            omega
          · simp

theorem run_loop_spec (fuel : ℕ) :
    ∀ (oracle : ℕ → Option String) (s : InterviewState) (n m : ℕ),
      s.max_questions = m → s.session_status = "active" →
      s.current_question_count + 1 ≤ m →
      m ≤ s.current_question_count + fuel →
      (run_loop fuel oracle s n).2 = n + (m - s.current_question_count) ∧
      (run_loop fuel oracle s n).1.session_status = "completed" ∧
      (run_loop fuel oracle s n).1.current_question_count = m := by
  induction fuel with
  | zero =>
      intro oracle s n m hmax hst h1 h2
      exact absurd (le_trans h1 h2) (by omega)
  | succ fuel ih =>
      intro oracle s n m hmax hst h1 h2
      by_cases hc : s.current_question_count + 1 = m
      · have hge : s.max_questions ≤ s.current_question_count + 1 := by omega
        have hst' : (cycle (oracle n) s).session_status = "completed" :=
          cycle_status_ge _ _ hge
        have hcond : should_continue (cycle (oracle n) s) = "end" := by
          unfold should_continue
          rw [hst']
          rfl
        simp only [run_loop, hcond, if_pos]
        refine ⟨by omega, hst', ?_⟩
        rw [cycle_count]
        omega
      · have hlt : s.current_question_count + 1 < m := by omega
        have hst' : (cycle (oracle n) s).session_status = "active" := by
          rw [cycle_status_lt _ _ (by omega), hst]
        have hcond : should_continue (cycle (oracle n) s) = "continue" := by
          unfold should_continue
          rw [hst']
          rfl
        have hne : ¬(should_continue (cycle (oracle n) s) = "end") := by
          rw [hcond]
          decide
        simp only [run_loop, if_neg hne]
        obtain ⟨ha, hb, hcnt⟩ := ih oracle (cycle (oracle n) s) (n + 1) m
          (by rw [cycle_max, hmax]) hst'
          (by rw [cycle_count]; omega)
          (by rw [cycle_count]; omega)
        refine ⟨?_, hb, hcnt⟩
        rw [ha, cycle_count]
        omega

theorem feedback_preserves_status (r : Option String) (s : InterviewState) :
    (generate_feedback_node r s).session_status = s.session_status := by
  cases r <;> rfl

/-- C2: each conduct/analyze/check cycle increments the question count by
exactly 1; starting from count 0, status `"active"` and maximum `m ≥ 1`,
the conditional edge says `"continue"` after every run of fewer than `m`
cycles and `"end"` exactly at `m` cycles (the state is then
`"completed"`), so the loop terminates after exactly `m` cycles for any
fuel bound of at least `m`; the compiled workflow — whose prepare step
fixes the maximum at 5 — always performs exactly 5 cycles between its
singleton prepare and feedback steps. -/
theorem question_count_loop (m : ℕ) (hm : 1 ≤ m) (s : InterviewState)
    (hcount : s.current_question_count = 0)
    (hstatus : s.session_status = "active")
    (hmax : s.max_questions = m) :
    (∀ (r : Option String) (st : InterviewState),
      (cycle r st).current_question_count = st.current_question_count + 1) ∧
    (∀ rs : List (Option String), rs.length < m →
      should_continue (run_cycles rs s) = "continue") ∧
    (∀ rs : List (Option String), rs.length = m →
      should_continue (run_cycles rs s) = "end" ∧
      (run_cycles rs s).session_status = "completed" ∧
      (run_cycles rs s).current_question_count = m) ∧
    (∀ (fuel : ℕ) (oracle : ℕ → Option String), m ≤ fuel →
      (run_loop fuel oracle s 0).2 = m ∧
      (run_loop fuel oracle s 0).1.session_status = "completed") ∧
    (∀ (s₀ : InterviewState) (oracle : ℕ → Option String) (fb : Option String)
        (fuel : ℕ), 5 ≤ fuel →
      (run_workflow fuel oracle fb s₀).2 = 5 ∧
      (run_workflow fuel oracle fb s₀).1.session_status = "completed") := by
  refine ⟨cycle_count, ?_, ?_, ?_, ?_⟩
  · intro rs h
    have hst := run_cycles_status_lt rs s (by omega)
    unfold should_continue
    rw [hst, hstatus]
    rfl
  · intro rs h
    have hst := run_cycles_status_ge rs s (by omega) (by omega)
    refine ⟨?_, hst, ?_⟩
    · unfold should_continue
      rw [hst]
      rfl
    · rw [run_cycles_count]
      omega
  · intro fuel oracle hfuel
    obtain ⟨ha, hb, _⟩ := run_loop_spec fuel oracle s 0 m hmax hstatus
      (by omega) (by omega)
    exact ⟨by rw [ha]; omega, hb⟩
  · intro s₀ oracle fb fuel hfuel
    obtain ⟨ha, hb, _⟩ := run_loop_spec fuel oracle (prepare_context_node s₀) 0 5
      rfl rfl (by simp [prepare_context_node]) (by simp [prepare_context_node]; omega)
    constructor
    · show (run_loop fuel oracle (prepare_context_node s₀) 0).2 = 5
      have hprep : (prepare_context_node s₀).current_question_count = 0 := rfl
      rw [ha, hprep]
    · show (generate_feedback_node fb _).session_status = "completed"
      rw [feedback_preserves_status]
      exact hb

/-- Witness for C2 with maximum 2: one cycle leaves the loop running, two
cycles complete it, and the full default workflow performs 5 cycles. -/
theorem question_count_loop_witness :
    should_continue (run_cycles [none]
      (⟨[], 1, 1, "technical", "", 0, 2, "active", []⟩ : InterviewState)) =
      "continue" ∧
    should_continue (run_cycles [none, none]
      (⟨[], 1, 1, "technical", "", 0, 2, "active", []⟩ : InterviewState)) =
      "end" ∧
    (run_workflow 7 (fun _ => none) none
      (⟨[], 1, 1, "technical", "", 0, 2, "active", []⟩ : InterviewState)).2 = 5 := by
  have h := question_count_loop 2 (by decide)
    (⟨[], 1, 1, "technical", "", 0, 2, "active", []⟩ : InterviewState) rfl rfl rfl
  exact ⟨h.2.1 [none] (by decide), (h.2.2.1 [none, none] rfl).1,
    (h.2.2.2.2 _ (fun _ => none) none 7 (by decide)).1⟩

/-! ### Characterizing `find`/`rfind`, and the extraction policy -/

theorem findIdx_of_isFirst (c : Char) :
    ∀ (cs : List Char) (i : ℕ), IsFirstIdx c cs i → findIdx c cs = some i := by
  intro cs
  induction cs with
  | nil =>
      intro i h
      exact absurd h.1 (by simp)
  | cons x xs ih =>
      intro i h
      unfold findIdx
      by_cases hx : x = c
      · have hi : i = 0 := by
          by_contra hne
          exact h.2 0 (Nat.pos_of_ne_zero hne) (by simp [hx])
        rw [if_pos hx, hi]
      · rw [if_neg hx]
        cases i with
        | zero => exact absurd h.1 (by simp [hx])
        | succ k =>
            have hk : IsFirstIdx c xs k := by
              refine ⟨by simpa using h.1, fun k' hk' => ?_⟩
              have := h.2 (k' + 1) (by omega)
              simpa using this
            rw [ih k hk]
            rfl

theorem rfindIdx_sound (c : Char) :
    ∀ (cs : List Char) (j : ℕ), rfindIdx c cs = some j → cs.get? j = some c := by
  intro cs
  induction cs with
  | nil => intro j h; simp [rfindIdx] at h
  | cons x xs ih =>
      intro j h
      unfold rfindIdx at h
      cases hr : rfindIdx c xs with
      | some j' =>
          rw [hr] at h
          injection h with h
          subst h
          simpa using ih j' hr
      | none =>
          rw [hr] at h
          by_cases hx : x = c
          · rw [if_pos hx] at h
            injection h with h
            subst h
            simp [hx]
          · rw [if_neg hx] at h
            exact absurd h (by simp)

theorem rfindIdx_of_isLast (c : Char) :
    ∀ (cs : List Char) (j : ℕ), IsLastIdx c cs j → rfindIdx c cs = some j := by
  intro cs
  induction cs with
  | nil =>
      intro j h
      exact absurd h.1 (by simp)
  | cons x xs ih =>
      intro j h
      unfold rfindIdx
      cases j with
      | zero =>
          have hnone : rfindIdx c xs = none := by
            cases hr : rfindIdx c xs with
            | none => rfl
            | some j' =>
                have hj' := rfindIdx_sound c xs j' hr
                have hlt : j' < xs.length := by
                  by_contra hge
                  rw [List.get?_eq_none.mpr (by omega)] at hj'
                  exact absurd hj' (by simp)
                have := h.2 (j' + 1) (by simpa using Nat.succ_lt_succ hlt)
                  (Nat.succ_pos j')
                exact absurd hj' (by simpa using this)
          rw [hnone]
          have hx : x = c := by simpa using h.1
          rw [if_pos hx]
      | succ k =>
          have hk : IsLastIdx c xs k := by
            refine ⟨by simpa using h.1, fun k' hk' hgt => ?_⟩
            have := h.2 (k' + 1) (by simpa using Nat.succ_lt_succ hk') (by omega)
            simpa using this
          rw [ih k hk]

/-- C3 (amended): the extraction takes the span from the *first* opening
brace through the *last* closing brace — not the first balanced span — as
the authoritative payload; `json.loads` failure on that span degrades to
the empty-dict fallback instead of raising (`parse_json_response` is
total). -/
theorem parse_json_first_to_last (r : String) (i j : ℕ)
    (hi : IsFirstIdx '\x7b' r.data i) (hj : IsLastIdx '\x7d' r.data j)
    (hij : i < j + 1) :
    parse_json_response r =
      (jsonLoads ⟨(r.data.drop i).take (j + 1 - i)⟩).getD (Json.obj []) ∧
    (jsonLoads ⟨(r.data.drop i).take (j + 1 - i)⟩ = none →
      parse_json_response r = Json.obj []) := by
  have h1 : parse_json_response r =
      (jsonLoads ⟨(r.data.drop i).take (j + 1 - i)⟩).getD (Json.obj []) := by
    simp only [parse_json_response]
    rw [findIdx_of_isFirst _ _ _ hi, rfindIdx_of_isLast _ _ _ hj]
    show (if i < j + 1 then _ else _) = _
    rw [if_pos hij]
    cases h : jsonLoads ⟨(r.data.drop i).take (j + 1 - i)⟩ <;> rfl
  exact ⟨h1, fun hn => by rw [h1, hn]; rfl⟩

/-- Witness for C3 (amended) on a response with prose on both sides of the
payload. -/
theorem parse_json_first_to_last_witness :
    parse_json_response "ok: \x7b\"a\": 1\x7d!" =
      (jsonLoads "\x7b\"a\": 1\x7d").getD (Json.obj []) := by
  have h := (parse_json_first_to_last "ok: \x7b\"a\": 1\x7d!" 4 11
    (by decide) (by decide) (by decide)).1
  have hspan :
      (⟨((("ok: \x7b\"a\": 1\x7d!").data.drop 4).take (11 + 1 - 4))⟩ : String) =
        "\x7b\"a\": 1\x7d" := by decide
  rw [hspan] at h
  exact h

/-- C3 counterexample: on a response holding two brace-delimited payloads,
the first balanced span is `\x7b"a": 1\x7d` and parses to a non-empty
dict, but the code slices from the first `\x7b` to the last `\x7d`, the
slice fails to parse, and the result is the empty-dict fallback — so the
first balanced span is not what the code treats as authoritative. -/
theorem parse_json_not_first_balanced_span :
    firstBalancedSpan "score \x7b\"a\": 1\x7d and \x7b\"b\": 2\x7d done" =
      some "\x7b\"a\": 1\x7d" ∧
    jsonLoads "\x7b\"a\": 1\x7d" = some (Json.obj [("a", Json.num 1)]) ∧
    parse_json_response "score \x7b\"a\": 1\x7d and \x7b\"b\": 2\x7d done" =
      Json.obj [] ∧
    (Json.obj [] : Json) ≠ Json.obj [("a", Json.num 1)] := by
  refine ⟨by decide, by rfl, by rfl, by simp⟩

end MockInterview
